import Mathlib

/-!
Shallow embedding of the trade-ingestion pipeline (src/models/trade.py,
src/db/postgres.py, src/fetchers/hyperliquid.py, src/fetchers/orderly.py,
src/fetch_trades.py), together with proofs settling the claims about it.

Modelling conventions:
* Timestamps and naive `datetime` values are integers in milliseconds.
  A naive datetime is encoded by the milliseconds-since-epoch reading of its
  wall-clock fields as if they were UTC.
* Python `Decimal` values are rationals; `Decimal(str(x))` applied to a
  well-formed numeric string is an uninterpreted valuation `PyEnv.val`.
* A raw venue payload is a structure of typed optional fields (`none` models
  an absent dictionary key); Python truthiness of the retrieved value is made
  explicit (`pyTruthyStr`, `pyTruthyInt`).
* Environment-dependent behaviour of the Python runtime is a parameter
  (`PyEnv`): the local-timezone offset used by `datetime.fromtimestamp` and
  the wall clock returned by `datetime.now()`.
-/

/-- Environment of the Python runtime: `val` models `Decimal(str(·))` on
well-formed numeric strings, `tzMs` is the machine-local UTC offset in
milliseconds as used by naive `datetime.fromtimestamp`, and `nowMs` is the
naive wall clock returned by `datetime.now()` in milliseconds. -/
structure PyEnv where
  val : String → ℚ
  tzMs : Int
  nowMs : Int

/-- Models Python `datetime.fromtimestamp(ms / 1000)` (src/models/trade.py
line 72 and 142): the *naive local* wall-clock datetime of the instant `ms`
milliseconds after the Unix epoch, encoded in milliseconds.  The naive local
wall clock reads `ms + tzMs`; it equals the UTC reading only when the
machine-local offset `tzMs` is zero. -/
def pyFromtimestampMs (tzMs : Int) (ms : Int) : Int :=
  ms + tzMs

/-- Python truthiness of `dict.get(key)` for a string-valued field:
`None` and the empty string are falsy. -/
def pyTruthyStr : Option String → Bool
  | some s => s != ""
  | none => false

/-- Python truthiness of `dict.get(key)` for an integer-valued field:
`None` and `0` are falsy. -/
def pyTruthyInt : Option Int → Bool
  | some n => n != 0
  | none => false

/-- Raw Hyperliquid fill payload (the dictionary documented at
src/models/trade.py lines 44-60).  `none` models an absent key.  Monetary
fields (`px`, `sz`, `fee`, `closedPnl`, `startPosition`) are the venue's
decimal strings. -/
structure HLRawFill where
  coin : Option String := none
  px : Option String := none
  sz : Option String := none
  side : Option String := none
  time : Option Int := none
  startPosition : Option String := none
  dir : Option String := none
  closedPnl : Option String := none
  hash : Option String := none
  oid : Option Int := none
  crossed : Option Bool := none
  fee : Option String := none
  tid : Option Int := none
  feeToken : Option String := none
deriving DecidableEq

/-- Unified Hyperliquid trade record (dataclass `HyperliquidTrade`,
src/models/trade.py lines 11-31).  `executed_at` is a naive datetime encoded
in milliseconds. -/
structure HyperliquidTrade where
  wallet_address : String
  trade_id : Int
  symbol : String
  side : String
  price : ℚ
  quantity : ℚ
  executed_at : Int
  tx_hash : Option String := none
  order_id : Option Int := none
  direction : Option String := none
  fee : Option ℚ := none
  fee_token : Option String := none
  realized_pnl : Option ℚ := none
  is_taker : Option Bool := none
  position_before : Option ℚ := none
deriving DecidableEq

/-- Translation of `HyperliquidTrade.from_api_response`
(src/models/trade.py lines 37-90). -/
def HyperliquidTrade.from_api_response (env : PyEnv) (wallet_address : String)
    (data : HLRawFill) : HyperliquidTrade :=
  let raw_side := data.side.getD ""
  let side := if raw_side = "B" then "BUY" else if raw_side = "A" then "SELL" else raw_side
  let raw_dir := data.dir.getD ""
  let direction := if raw_dir ≠ "" then some raw_dir.toUpper else none
  let time_ms := data.time.getD 0
  let executed_at := pyFromtimestampMs env.tzMs time_ms
  { wallet_address := wallet_address
    trade_id := data.tid.getD 0
    tx_hash := data.hash
    symbol := data.coin.getD ""
    order_id := data.oid
    side := side
    direction := direction
    price := env.val (data.px.getD "0")
    quantity := env.val (data.sz.getD "0")
    fee := if pyTruthyStr data.fee then some (env.val (data.fee.getD "0")) else none
    fee_token := data.feeToken
    realized_pnl := if pyTruthyStr data.closedPnl then some (env.val (data.closedPnl.getD "0")) else none
    is_taker := data.crossed
    position_before := if pyTruthyStr data.startPosition then some (env.val (data.startPosition.getD "0")) else none
    executed_at := executed_at }

/-- Raw Orderly trade payload (the dictionary documented at
src/models/trade.py lines 124-138, plus the `timestamp` fallback key read at
line 141).  Numeric fields arrive as JSON numbers; their values are
rationals. -/
structure ORawTrade where
  id : Option Int := none
  symbol : Option String := none
  order_id : Option Int := none
  side : Option String := none
  executed_price : Option ℚ := none
  executed_quantity : Option ℚ := none
  fee : Option ℚ := none
  fee_asset : Option String := none
  realized_pnl : Option ℚ := none
  is_maker : Option Bool := none
  created_time : Option Int := none
  timestamp : Option Int := none
  trade_id : Option Int := none
deriving DecidableEq

/-- Unified Orderly trade record (dataclass `OrderlyTrade`,
src/models/trade.py lines 93-111). -/
structure OrderlyTrade where
  wallet_address : String
  account_id : String
  trade_id : Int
  symbol : String
  side : String
  price : ℚ
  quantity : ℚ
  executed_at : Int
  order_id : Option Int := none
  fee : Option ℚ := none
  fee_token : Option String := none
  realized_pnl : Option ℚ := none
  is_taker : Option Bool := none
deriving DecidableEq

/-- Translation of `OrderlyTrade.from_api_response`
(src/models/trade.py lines 117-168).  `data.get("created_time") or
data.get("timestamp", 0)` and `data.get("trade_id") or data.get("id", 0)`
are Python truthiness fallbacks; a zero/absent timestamp falls back to
`datetime.now()` (`env.nowMs`). -/
def OrderlyTrade.from_api_response (env : PyEnv) (wallet_address : String)
    (account_id : String) (data : ORawTrade) : OrderlyTrade :=
  let time_ms := if pyTruthyInt data.created_time then data.created_time.getD 0
                 else data.timestamp.getD 0
  let executed_at := if time_ms ≠ 0 then pyFromtimestampMs env.tzMs time_ms else env.nowMs
  let trade_id := if pyTruthyInt data.trade_id then data.trade_id.getD 0 else data.id.getD 0
  let side := (data.side.getD "").toUpper
  let is_taker := data.is_maker.map (fun b => !b)
  { wallet_address := wallet_address
    account_id := account_id
    trade_id := trade_id
    symbol := data.symbol.getD ""
    order_id := data.order_id
    side := side
    price := data.executed_price.getD 0
    quantity := data.executed_quantity.getD 0
    fee := data.fee
    fee_token := data.fee_asset
    realized_pnl := data.realized_pnl
    is_taker := is_taker
    executed_at := executed_at }

/-- Runtime environment with a zero local-timezone offset (a machine running
in UTC); the decimal valuation is arbitrary. -/
def env0 : PyEnv := ⟨fun _ => 0, 0, 0⟩

/-- Runtime environment whose machine-local timezone is UTC+8
(offset 28800000 ms), e.g. Asia/Taipei. -/
def envUTC8 : PyEnv := ⟨fun _ => 0, 28800000, 0⟩

/-- Hyperliquid fill payload whose `time` field is 1704067200000 ms, the
instant 2024-01-01T00:00:00Z. -/
def fillNewYear2024 : HLRawFill := { time := some 1704067200000 }

/-- C3: Venue-A timestamp normalization.  The claim (and spec) say `time` is
converted to the UTC instant, with time=1704067200000 mapping to
2024-01-01T00:00:00Z.  The code calls the local-time
`datetime.fromtimestamp(time_ms / 1000)` (src/models/trade.py line 72), so
the stored naive datetime is the machine-local reading: in a UTC+8
environment the fill is stored as 2024-01-01 08:00:00 (1704096000000 ms),
not 2024-01-01T00:00:00Z (1704067200000 ms); the claimed mapping holds only
when the machine-local offset is zero. -/
theorem hl_executed_at_uses_local_time :
    (HyperliquidTrade.from_api_response envUTC8 "w" fillNewYear2024).executed_at
        = 1704096000000 ∧
    (HyperliquidTrade.from_api_response envUTC8 "w" fillNewYear2024).executed_at
        ≠ 1704067200000 ∧
    (HyperliquidTrade.from_api_response env0 "w" fillNewYear2024).executed_at
        = 1704067200000 := by
  refine ⟨rfl, by decide, rfl⟩

/-- C8: Venue-A side mapping: side code "B" maps to "BUY", "A" to "SELL",
an absent side becomes the empty string, and any other value passes through
unchanged (src/models/trade.py lines 62-64). -/
theorem hl_side_mapping (env : PyEnv) (w : String) (d : HLRawFill) :
    (HyperliquidTrade.from_api_response env w { d with side := some "B" }).side = "BUY" ∧
    (HyperliquidTrade.from_api_response env w { d with side := some "A" }).side = "SELL" ∧
    (HyperliquidTrade.from_api_response env w { d with side := none }).side = "" ∧
    ∀ s, s ≠ "B" → s ≠ "A" →
      (HyperliquidTrade.from_api_response env w { d with side := some s }).side = s := by
  refine ⟨rfl, rfl, rfl, fun s hB hA => ?_⟩
  simp [HyperliquidTrade.from_api_response, hB, hA]

/-- Witness for C8 at the concrete pass-through side code "X". -/
theorem hl_side_mapping_witness :
    (HyperliquidTrade.from_api_response env0 "w"
      { ({} : HLRawFill) with side := some "X" }).side = "X" :=
  (hl_side_mapping env0 "w" {}).2.2.2 "X" (by decide) (by decide)

/-- C9: Normalizer totality: both normalizers are total functions of the
raw payload in this embedding (they return a record, never an error), and
each missing optional field — fee, fee token, realized PnL, taker flag,
position-before, order id, tx reference — maps to `none`
(src/models/trade.py lines 37-90 and 117-168). -/
theorem normalizers_missing_optional_to_none (env : PyEnv) (w a : String)
    (d : HLRawFill) (e : ORawTrade) :
    (d.fee = none → (HyperliquidTrade.from_api_response env w d).fee = none) ∧
    (d.feeToken = none → (HyperliquidTrade.from_api_response env w d).fee_token = none) ∧
    (d.closedPnl = none → (HyperliquidTrade.from_api_response env w d).realized_pnl = none) ∧
    (d.crossed = none → (HyperliquidTrade.from_api_response env w d).is_taker = none) ∧
    (d.startPosition = none → (HyperliquidTrade.from_api_response env w d).position_before = none) ∧
    (d.oid = none → (HyperliquidTrade.from_api_response env w d).order_id = none) ∧
    (d.hash = none → (HyperliquidTrade.from_api_response env w d).tx_hash = none) ∧
    (e.fee = none → (OrderlyTrade.from_api_response env w a e).fee = none) ∧
    (e.fee_asset = none → (OrderlyTrade.from_api_response env w a e).fee_token = none) ∧
    (e.realized_pnl = none → (OrderlyTrade.from_api_response env w a e).realized_pnl = none) ∧
    (e.is_maker = none → (OrderlyTrade.from_api_response env w a e).is_taker = none) ∧
    (e.order_id = none → (OrderlyTrade.from_api_response env w a e).order_id = none) := by
  refine ⟨?_, ?_, ?_, ?_, ?_, ?_, ?_, ?_, ?_, ?_, ?_, ?_⟩ <;> intro h <;>
    simp [HyperliquidTrade.from_api_response, OrderlyTrade.from_api_response,
      pyTruthyStr, h]

/-- Witness for C9: payloads with every optional field absent normalize
with every optional output field `none`. -/
theorem normalizers_missing_optional_to_none_witness :
    (HyperliquidTrade.from_api_response env0 "w" ({} : HLRawFill)).fee = none ∧
    (HyperliquidTrade.from_api_response env0 "w" ({} : HLRawFill)).fee_token = none ∧
    (HyperliquidTrade.from_api_response env0 "w" ({} : HLRawFill)).realized_pnl = none ∧
    (HyperliquidTrade.from_api_response env0 "w" ({} : HLRawFill)).is_taker = none ∧
    (HyperliquidTrade.from_api_response env0 "w" ({} : HLRawFill)).position_before = none ∧
    (HyperliquidTrade.from_api_response env0 "w" ({} : HLRawFill)).order_id = none ∧
    (HyperliquidTrade.from_api_response env0 "w" ({} : HLRawFill)).tx_hash = none ∧
    (OrderlyTrade.from_api_response env0 "w" "a" ({} : ORawTrade)).fee = none ∧
    (OrderlyTrade.from_api_response env0 "w" "a" ({} : ORawTrade)).fee_token = none ∧
    (OrderlyTrade.from_api_response env0 "w" "a" ({} : ORawTrade)).realized_pnl = none ∧
    (OrderlyTrade.from_api_response env0 "w" "a" ({} : ORawTrade)).is_taker = none ∧
    (OrderlyTrade.from_api_response env0 "w" "a" ({} : ORawTrade)).order_id = none :=
  let h := normalizers_missing_optional_to_none env0 "w" "a" {} {}
  ⟨h.1 rfl, h.2.1 rfl, h.2.2.1 rfl, h.2.2.2.1 rfl, h.2.2.2.2.1 rfl,
    h.2.2.2.2.2.1 rfl, h.2.2.2.2.2.2.1 rfl, h.2.2.2.2.2.2.2.1 rfl,
    h.2.2.2.2.2.2.2.2.1 rfl, h.2.2.2.2.2.2.2.2.2.1 rfl,
    h.2.2.2.2.2.2.2.2.2.2.1 rfl, h.2.2.2.2.2.2.2.2.2.2.2 rfl⟩

/-- C10: the venue-B trade identifier is chosen by Python truthiness
(`data.get("trade_id") or data.get("id", 0)`, src/models/trade.py line 145):
a present-but-zero `trade_id` falls back to `id` (default 0), exactly as an
absent `trade_id` does, while a nonzero `trade_id` is kept. -/
theorem orderly_trade_id_truthy_fallback (env : PyEnv) (w a : String) (e : ORawTrade) :
    (e.trade_id = some 0 →
      (OrderlyTrade.from_api_response env w a e).trade_id = e.id.getD 0) ∧
    (e.trade_id = none →
      (OrderlyTrade.from_api_response env w a e).trade_id = e.id.getD 0) ∧
    (∀ n : Int, n ≠ 0 → e.trade_id = some n →
      (OrderlyTrade.from_api_response env w a e).trade_id = n) := by
  refine ⟨fun h => ?_, fun h => ?_, fun n hn h => ?_⟩
  · simp [OrderlyTrade.from_api_response, pyTruthyInt, h]
  · simp [OrderlyTrade.from_api_response, pyTruthyInt, h]
  · simp [OrderlyTrade.from_api_response, pyTruthyInt, h, hn]

/-- Witness for C10: `trade_id = 0` with `id = 42` normalizes to 42. -/
theorem orderly_trade_id_truthy_fallback_witness :
    (OrderlyTrade.from_api_response env0 "w" "a"
      { trade_id := some 0, id := some 42 }).trade_id = (42 : Int) :=
  (orderly_trade_id_truthy_fallback env0 "w" "a"
    { trade_id := some 0, id := some 42 }).1 rfl

/-- Row-level semantics of a PostgreSQL bulk
`INSERT ... ON CONFLICT (key) DO NOTHING RETURNING` run against a table
`db`: the input rows are processed in order, a row whose key already appears
(in the table or among rows inserted earlier in the same call) is skipped,
any other row is appended and counted.  Splitting the input into
`BATCH_SIZE` slices does not change this semantics, since each batch runs
against the table left by the previous batches and the per-call count is the
sum over batches (src/db/postgres.py lines 110-157 and 204-249). -/
def upsertRows {α κ : Type} [DecidableEq κ] (key : α → κ) :
    List α → List α → List α × Nat
  | db, [] => (db, 0)
  | db, t :: ts =>
    if db.any (fun r => decide (key r = key t)) then upsertRows key db ts
    else ((upsertRows key (db ++ [t]) ts).1, (upsertRows key (db ++ [t]) ts).2 + 1)

/-- Structure of one upsert call: the final table is the initial table with a
list of fresh rows appended, the reported count is the number of fresh rows,
and no fresh row's key collides with a pre-existing row's key. -/
theorem upsertRows_append {α κ : Type} [DecidableEq κ] (key : α → κ)
    (ts : List α) : ∀ db : List α, ∃ new : List α,
      upsertRows key db ts = (db ++ new, new.length) ∧
      ∀ t ∈ new, ∀ r ∈ db, key t ≠ key r := by
  induction ts with
  | nil => exact fun db => ⟨[], by simp [upsertRows], by simp⟩
  | cons t ts ih =>
    intro db
    rw [upsertRows]
    by_cases h : db.any (fun r => decide (key r = key t)) = true
    · rw [if_pos h]
      exact ih db
    · rw [if_neg h]
      obtain ⟨new, h1, h2⟩ := ih (db ++ [t])
      refine ⟨t :: new, ?_, ?_⟩
      · rw [h1]
        simp
      · intro x hx r hr
        rcases List.mem_cons.mp hx with rfl | hx
        · intro hk
          exact h (List.any_eq_true.mpr ⟨r, hr, decide_eq_true hk.symm⟩)
        · exact h2 x hx r (List.mem_append_left _ hr)

/-- Every key occurring in the upserted records is present in the final
table. -/
theorem upsertRows_key_covered {α κ : Type} [DecidableEq κ] (key : α → κ)
    (ts : List α) : ∀ db, ∀ t ∈ ts, ∃ r ∈ (upsertRows key db ts).1, key r = key t := by
  induction ts with
  | nil => simp
  | cons t ts ih =>
    intro db x hx
    rw [upsertRows]
    by_cases h : db.any (fun r => decide (key r = key t)) = true
    · rw [if_pos h]
      rcases List.mem_cons.mp hx with rfl | hx
      · obtain ⟨r, hr, hk⟩ := List.any_eq_true.mp h
        obtain ⟨new, h1, -⟩ := upsertRows_append key ts db
        rw [h1]
        exact ⟨r, List.mem_append_left _ hr, of_decide_eq_true hk⟩
      · exact ih db x hx
    · rw [if_neg h]
      rcases List.mem_cons.mp hx with rfl | hx
      · obtain ⟨new, h1, -⟩ := upsertRows_append key ts (db ++ [x])
        rw [h1]
        exact ⟨x, List.mem_append_left _ (List.mem_append_right _ (List.mem_singleton.mpr rfl)), rfl⟩
      · exact ih (db ++ [t]) x hx

/-- Upserting records whose keys are all already present changes nothing and
reports zero inserted rows. -/
theorem upsertRows_all_covered {α κ : Type} [DecidableEq κ] (key : α → κ)
    (ts : List α) : ∀ db, (∀ t ∈ ts, ∃ r ∈ db, key r = key t) →
      upsertRows key db ts = (db, 0) := by
  induction ts with
  | nil => intro db _; simp [upsertRows]
  | cons t ts ih =>
    intro db hall
    rw [upsertRows]
    have ht : db.any (fun r => decide (key r = key t)) = true := by
      obtain ⟨r, hr, hk⟩ := hall t (List.mem_cons_self t ts)
      exact List.any_eq_true.mpr ⟨r, hr, decide_eq_true hk⟩
    rw [if_pos ht]
    exact ih db (fun x hx => hall x (List.mem_cons_of_mem _ hx))

/-- Upserting the same record list a second time leaves the table unchanged
and reports zero inserted rows. -/
theorem upsertRows_idem {α κ : Type} [DecidableEq κ] (key : α → κ)
    (db ts : List α) :
    upsertRows key (upsertRows key db ts).1 ts = ((upsertRows key db ts).1, 0) :=
  upsertRows_all_covered key ts _ (fun t ht => upsertRows_key_covered key ts db t ht)

/-- Uniqueness key of a Hyperliquid trade row: the
`ON CONFLICT (wallet_address, trade_id)` clause (src/db/postgres.py
line 133). -/
def hlKey (t : HyperliquidTrade) : String × Int :=
  (t.wallet_address, t.trade_id)

/-- Uniqueness key of an Orderly trade row: the
`ON CONFLICT (account_id, trade_id)` clause (src/db/postgres.py line 227). -/
def orderlyKey (t : OrderlyTrade) : String × Int :=
  (t.account_id, t.trade_id)

/-- Translation of `PostgresManager.upsert_hyperliquid_trades`
(src/db/postgres.py lines 74-157): batched insert-or-ignore keyed on
`(wallet_address, trade_id)`, returning the new table and the count of rows
newly inserted in this call. -/
def upsert_hyperliquid_trades (db trades : List HyperliquidTrade) :
    List HyperliquidTrade × Nat :=
  upsertRows hlKey db trades

/-- Translation of `PostgresManager.upsert_orderly_trades`
(src/db/postgres.py lines 170-249): batched insert-or-ignore keyed on
`(account_id, trade_id)`. -/
def upsert_orderly_trades (db trades : List OrderlyTrade) :
    List OrderlyTrade × Nat :=
  upsertRows orderlyKey db trades

/-- C1: Upsert idempotence for both platforms: calling the batch upsert a
second time with the same records leaves the stored table exactly as after
the first call and reports an inserted count of 0; moreover a single call
only appends rows whose uniqueness key is fresh, so a record whose key
already exists is skipped and the existing rows are never overwritten. -/
theorem upsert_trades_idempotent (dbH tsH : List HyperliquidTrade)
    (dbO tsO : List OrderlyTrade) :
    (upsert_hyperliquid_trades (upsert_hyperliquid_trades dbH tsH).1 tsH
        = ((upsert_hyperliquid_trades dbH tsH).1, 0)) ∧
    (∃ new, upsert_hyperliquid_trades dbH tsH = (dbH ++ new, new.length) ∧
        ∀ t ∈ new, ∀ r ∈ dbH, hlKey t ≠ hlKey r) ∧
    (upsert_orderly_trades (upsert_orderly_trades dbO tsO).1 tsO
        = ((upsert_orderly_trades dbO tsO).1, 0)) ∧
    (∃ new, upsert_orderly_trades dbO tsO = (dbO ++ new, new.length) ∧
        ∀ t ∈ new, ∀ r ∈ dbO, orderlyKey t ≠ orderlyKey r) :=
  ⟨upsertRows_idem hlKey dbH tsH, upsertRows_append hlKey tsH dbH,
    upsertRows_idem orderlyKey dbO tsO, upsertRows_append orderlyKey tsO dbO⟩

/-- Cursor row of the `fetch_status` table for one `(wallet, platform)`
pair: nullable watermark, cumulative inserted count, nullable last error
(src/db/postgres.py lines 262-330). -/
structure FetchStatus where
  last_fetch_time : Option Int
  total_trades_fetched : Int
  last_error : Option String
deriving DecidableEq

/-- Translation of `PostgresManager.upsert_fetch_status` (src/db/postgres.py
lines 291-330) restricted to one `(wallet, platform)` cursor row: the row is
inserted if absent; on conflict `last_fetch_time = COALESCE(new, old)`,
`total_trades_fetched` is incremented by the argument, and `last_error` is
replaced unconditionally. -/
def upsert_fetch_status (st : Option FetchStatus) (last_fetch_time : Option Int)
    (total_trades_fetched : Int) (last_error : Option String) : FetchStatus :=
  match st with
  | none => ⟨last_fetch_time, total_trades_fetched, last_error⟩
  | some s =>
    ⟨match last_fetch_time with
       | some t => some t
       | none => s.last_fetch_time,
     s.total_trades_fetched + total_trades_fetched,
     last_error⟩

/-- Translation of `PostgresManager.update_fetch_error` (src/db/postgres.py
lines 332-341): records an error with a null watermark argument and a zero
insert delta. -/
def update_fetch_error (st : Option FetchStatus) (error : String) : FetchStatus :=
  upsert_fetch_status st none 0 (some error)

/-- Python `max` over the nonempty list `x :: xs`
(`max(t["executed_at"] for t in trades)`, src/fetch_trades.py line 180). -/
def listMax (x : Int) (xs : List Int) : Int :=
  xs.foldl max x

/-- Default start date `datetime(2025, 1, 1)` (src/fetch_trades.py line 45)
in milliseconds. -/
def DEFAULT_START_DATE : Int := 1735689600000

/-- Fetch start computed by the orchestrator (src/fetch_trades.py lines
152-163): the cursor's watermark when the row exists and its watermark is
non-null, the fixed default start date otherwise. -/
def startTimeOf (st : Option FetchStatus) : Int :=
  match st with
  | some s => s.last_fetch_time.getD DEFAULT_START_DATE
  | none => DEFAULT_START_DATE

/-- Outcome of one orchestrator run for one `(wallet, platform)` pair:
either the fetch and upsert succeed, carrying the `executed_at` values of
all fetched trades and the inserted count, or the run raises with an error
message. -/
inductive RunResult where
  | success (executed : List Int) (inserted : Int)
  | failure (err : String)

/-- Cursor effect of one orchestrator run
(`TradeFetcher.fetch_hyperliquid_for_user`, src/fetch_trades.py lines
150-197; `fetch_orderly_for_user` behaves identically at lines 222-272): a
successful run that fetched no trades returns before touching the cursor; a
successful run with trades writes the maximum `executed_at` as the new
watermark, adds the inserted count, and clears the error; a failed run goes
through `update_fetch_error`, passing a null watermark. -/
def run_cursor_update (st : Option FetchStatus) : RunResult → Option FetchStatus
  | .success [] _ => st
  | .success (e :: es) inserted =>
      some (upsert_fetch_status st (some (listMax e es)) inserted none)
  | .failure err => some (update_fetch_error st err)

/-- Watermark stored in a cursor state (`none` when no row exists or the
row's `last_fetch_time` is null). -/
def watermark (st : Option FetchStatus) : Option Int :=
  st.bind (fun s => s.last_fetch_time)

/-- Order on watermarks: a null watermark precedes everything. -/
def wmLE : Option Int → Option Int → Prop
  | none, _ => True
  | some _, none => False
  | some a, some b => a ≤ b

/-- A run is window-respecting when every trade fetched by a successful run
has `executed_at` at or after the run's start time, which the orchestrator
sets to the current watermark (or the default start date).  This is the
contract of the venue time-range query that the claim's parenthetical
"since the fetch starts from it" appeals to. -/
def ValidRun (st : Option FetchStatus) : RunResult → Prop
  | .success executed _ => ∀ t ∈ executed, startTimeOf st ≤ t
  | .failure _ => True

/-- A sequence of runs, each window-respecting for the cursor state it runs
against. -/
def ValidRuns : Option FetchStatus → List RunResult → Prop
  | _, [] => True
  | st, r :: rs => ValidRun st r ∧ ValidRuns (run_cursor_update st r) rs

/-- Final cursor state after a sequence of runs. -/
def applyRuns (st : Option FetchStatus) (rs : List RunResult) : Option FetchStatus :=
  rs.foldl run_cursor_update st

theorem wmLE_refl (x : Option Int) : wmLE x x := by
  cases x <;> simp [wmLE]

theorem wmLE_trans {x y z : Option Int} (h1 : wmLE x y) (h2 : wmLE y z) :
    wmLE x z := by
  cases x with
  | none => trivial
  | some a =>
    cases y with
    | none => exact h1.elim
    | some b =>
      cases z with
      | none => exact h2.elim
      | some c => exact le_trans (α := ℤ) h1 h2

theorem le_listMax (x : Int) (xs : List Int) : x ≤ listMax x xs := by
  induction xs generalizing x with
  | nil => exact le_refl x
  | cons a xs ih => exact le_trans (le_max_left x a) (ih (max x a))

/-- One run never decreases the watermark. -/
theorem run_cursor_update_wm (st : Option FetchStatus) (r : RunResult)
    (h : ValidRun st r) :
    wmLE (watermark st) (watermark (run_cursor_update st r)) := by
  cases r with
  | success executed inserted =>
    cases executed with
    | nil => exact wmLE_refl _
    | cons e es =>
      have hmax : startTimeOf st ≤ listMax e es :=
        le_trans (h e (List.mem_cons_self e es)) (le_listMax e es)
      cases st with
      | none => trivial
      | some s =>
        cases hlf : s.last_fetch_time with
        | none => simp [watermark, hlf, run_cursor_update, upsert_fetch_status, wmLE]
        | some w =>
          have hw : w ≤ listMax e es := by
            have hst : startTimeOf (some s) = w := by simp [startTimeOf, hlf]
            exact hst ▸ hmax
          simpa [watermark, hlf, run_cursor_update, upsert_fetch_status, wmLE] using hw
  | failure err =>
    cases st with
    | none => trivial
    | some s =>
      simpa [watermark, run_cursor_update, update_fetch_error,
        upsert_fetch_status] using wmLE_refl s.last_fetch_time

/-- Across a window-respecting run sequence the watermark never decreases. -/
theorem watermark_applyRuns (rs : List RunResult) :
    ∀ st, ValidRuns st rs → wmLE (watermark st) (watermark (applyRuns st rs)) := by
  induction rs with
  | nil => exact fun st _ => wmLE_refl _
  | cons r rs ih =>
    intro st h
    exact wmLE_trans (run_cursor_update_wm st r h.1) (ih (run_cursor_update st r) h.2)

/-- C2: Cursor watermark monotonicity: across any window-respecting sequence
of orchestrator runs the stored watermark is non-decreasing; a successful
run with trades replaces it by the maximum `executed_at` among all fetched
trades; and a failed run, which passes a null watermark, leaves it exactly
unchanged. -/
theorem fetch_status_watermark_monotone (st : Option FetchStatus)
    (rs : List RunResult) (h : ValidRuns st rs) :
    wmLE (watermark st) (watermark (applyRuns st rs)) ∧
    (∀ e es inserted,
        watermark (run_cursor_update st (.success (e :: es) inserted))
          = some (listMax e es)) ∧
    (∀ err, watermark (run_cursor_update st (.failure err)) = watermark st) := by
  refine ⟨watermark_applyRuns rs st h, fun e es inserted => ?_, fun err => ?_⟩
  · cases st <;> simp [watermark, run_cursor_update, upsert_fetch_status]
  · cases st <;> simp [watermark, run_cursor_update, update_fetch_error,
      upsert_fetch_status]

/-- Witness for C2: starting with no cursor row, a successful run fetching a
trade after the default start date followed by a failed run is
window-respecting, and the watermark is non-decreasing across it. -/
theorem fetch_status_watermark_monotone_witness :
    ValidRuns none [RunResult.success [1735689600500] 1, RunResult.failure "boom"] ∧
    wmLE (watermark none)
      (watermark (applyRuns none
        [RunResult.success [1735689600500] 1, RunResult.failure "boom"])) := by
  have h1 : ValidRun none (RunResult.success [1735689600500] 1) := by
    intro t ht
    rcases List.mem_singleton.mp ht with rfl
    decide
  have hv : ValidRuns none
      [RunResult.success [1735689600500] 1, RunResult.failure "boom"] :=
    ⟨h1, trivial, trivial⟩
  exact ⟨hv, (fetch_status_watermark_monotone none _ hv).1⟩

/-- Result-page cap of the venue-A time-range query
(`FILLS_LIMIT = 500`, src/fetchers/hyperliquid.py line 21). -/
def FILLS_LIMIT : Nat := 500

/-- Minimum window span: one hour in milliseconds
(`MIN_INTERVAL_HOURS = 1`, src/fetchers/hyperliquid.py line 24).  The code
compares the span in fractional hours; for integral milliseconds
`interval_hours > 1` holds exactly when the span exceeds 3600000 ms. -/
def MIN_INTERVAL_MS : Int := 3600000

/-- Translation of `HyperliquidFetcher._fetch_fills_for_interval`
(src/fetchers/hyperliquid.py lines 45-120), returning the fetched fills
together with the number of bisection levels performed below the window.
`query s e` is the venue's `user_fills_by_time` on the window `[s, e]` in
milliseconds, with the retry loop folded in: after the final failed attempt
the window's result is treated as empty, which the model folds into `query`
returning `[]`.  An empty result returns `[]`; a result at or above
`FILLS_LIMIT` on a window wider than the one-hour floor is refetched on the
two halves split at the midpoint `s + (e - s) / 2` (datetime arithmetic at
millisecond resolution) and concatenated first half then second half; at or
below the floor the possibly truncated result is returned as-is (with a
logged warning). -/
def fetch_fills_core (query : Int → Int → List HLRawFill) (s e : Int) :
    List HLRawFill × Nat :=
  let fills := query s e
  if fills.isEmpty then ([], 0)
  else if FILLS_LIMIT ≤ fills.length then
    if h : MIN_INTERVAL_MS < e - s then
      ((fetch_fills_core query s (s + (e - s) / 2)).1 ++
          (fetch_fills_core query (s + (e - s) / 2) e).1,
        max (fetch_fills_core query s (s + (e - s) / 2)).2
          (fetch_fills_core query (s + (e - s) / 2) e).2 + 1)
    else (fills, 0)
  else (fills, 0)
termination_by (e - s).toNat
decreasing_by
  all_goals
    simp_wf
    simp only [MIN_INTERVAL_MS] at h
    omega

/-- Fill list returned by `_fetch_fills_for_interval`. -/
def fetch_fills_for_interval (query : Int → Int → List HLRawFill) (s e : Int) :
    List HLRawFill :=
  (fetch_fills_core query s e).1

/-- Number of bisection levels `_fetch_fills_for_interval` performs below
the window `[s, e]` (0 when the window is not split). -/
def fetch_fills_depth (query : Int → Int → List HLRawFill) (s e : Int) : Nat :=
  (fetch_fills_core query s e).2

/-- A window at or below the one-hour floor is never split. -/
theorem fetch_fills_depth_floor (query : Int → Int → List HLRawFill)
    (s e : Int) (hg : ¬ MIN_INTERVAL_MS < e - s) :
    fetch_fills_depth query s e = 0 := by
  unfold fetch_fills_depth
  rw [fetch_fills_core]
  simp [hg]
  split <;> rfl

/-- C5: Bisection termination: the recursive interval fetch always
terminates (`fetch_fills_core` is a total function, its recursion halving
the span at each level down to the one-hour floor), and for every window
whose span is at most `MIN_INTERVAL_HOURS · 2^d` the recursion performs at
most `d` bisection levels — the depth is bounded by
log2((end − start) / MIN_INTERVAL_HOURS). -/
theorem fetch_fills_depth_le (query : Int → Int → List HLRawFill) (d : Nat) :
    ∀ s e : Int, e - s ≤ MIN_INTERVAL_MS * 2 ^ d →
      fetch_fills_depth query s e ≤ d := by
  induction d with
  | zero =>
    intro s e hspan
    have hg : ¬ MIN_INTERVAL_MS < e - s := by
      simp only [pow_zero, mul_one] at hspan
      omega
    exact le_of_eq (fetch_fills_depth_floor query s e hg)
  | succ d ih =>
    intro s e hspan
    by_cases hg : MIN_INTERVAL_MS < e - s
    · have hk : (0 : Int) < 2 ^ d := by positivity
      rw [pow_succ] at hspan
      simp only [MIN_INTERVAL_MS] at hspan hg
      have h1 : (s + (e - s) / 2) - s ≤ MIN_INTERVAL_MS * 2 ^ d := by
        simp only [MIN_INTERVAL_MS]
        omega
      have h2 : e - (s + (e - s) / 2) ≤ MIN_INTERVAL_MS * 2 ^ d := by
        simp only [MIN_INTERVAL_MS]
        omega
      have hd1 := ih s (s + (e - s) / 2) h1
      have hd2 := ih (s + (e - s) / 2) e h2
      unfold fetch_fills_depth at hd1 hd2 ⊢
      rw [fetch_fills_core]
      split
      · omega
      · split
        · rw [dif_pos (by simp only [MIN_INTERVAL_MS]; omega)]
          simp only []
          omega
        · omega
    · exact le_trans (le_of_eq (fetch_fills_depth_floor query s e hg)) (Nat.zero_le _)

/-- Witness query: a source saturated at exactly `FILLS_LIMIT` fills for
every window. -/
def qsat : Int → Int → List HLRawFill :=
  fun _ _ => List.replicate 500 {}

/-- Witness for C5: a saturated two-hour window needs at most one bisection
level. -/
theorem fetch_fills_depth_le_witness :
    (7200000 : Int) - 0 ≤ MIN_INTERVAL_MS * 2 ^ 1 ∧
    fetch_fills_depth qsat 0 7200000 ≤ 1 :=
  ⟨by decide, fetch_fills_depth_le qsat 1 0 7200000 (by decide)⟩

/-- C6: Bisection step behaviour: when a window's query returns at least
`FILLS_LIMIT` fills, a window wider than the one-hour floor is split at its
midpoint and the result is the first half's fetch followed by the second
half's fetch; a window at or below the floor returns the possibly truncated
result as-is (src/fetchers/hyperliquid.py lines 93-120). -/
theorem fetch_fills_saturated_step (query : Int → Int → List HLRawFill)
    (s e : Int) (hl : FILLS_LIMIT ≤ (query s e).length) :
    (MIN_INTERVAL_MS < e - s →
      fetch_fills_for_interval query s e =
        fetch_fills_for_interval query s (s + (e - s) / 2) ++
          fetch_fills_for_interval query (s + (e - s) / 2) e) ∧
    (¬ MIN_INTERVAL_MS < e - s →
      fetch_fills_for_interval query s e = query s e) := by
  have hne : ¬ (query s e).isEmpty = true := by
    intro h
    rw [List.isEmpty_iff] at h
    rw [h] at hl
    simp [FILLS_LIMIT] at hl
  constructor <;> intro hg <;> unfold fetch_fills_for_interval <;>
    rw [fetch_fills_core] <;> simp only [hne, hl, hg] <;> norm_num

/-- Witness for C6: a saturated two-hour window splits at the one-hour
midpoint. -/
theorem fetch_fills_saturated_step_witness :
    fetch_fills_for_interval qsat 0 7200000 =
      fetch_fills_for_interval qsat 0 3600000 ++
        fetch_fills_for_interval qsat 3600000 7200000 :=
  (fetch_fills_saturated_step qsat 0 7200000
    (by simp only [qsat, List.length_replicate]; decide)).1 (by decide)

/-- Page size of the venue-B query (`PAGE_SIZE = 500`,
src/fetchers/orderly.py line 18). -/
def PAGE_SIZE : Nat := 500

/-- Response envelope shapes tolerated by `OrderlyFetcher.fetch_trades`
(src/fetchers/orderly.py lines 124-139): the row array may sit under
`{"data": {"rows": [...]}}`, under `{"data": [...]}`, or directly under
`{"rows": [...]}`; any other response yields no rows.  (The final
`isinstance(response, list)` branch of the code is unreachable, nested as it
is under `isinstance(response, dict)`.) -/
inductive OResponse where
  | dataRows (r : List ORawTrade)
  | dataList (r : List ORawTrade)
  | rows (r : List ORawTrade)
  | other
deriving DecidableEq

/-- The `trades_data` extraction of `OrderlyFetcher.fetch_trades`
(src/fetchers/orderly.py lines 128-139). -/
def trades_data : OResponse → List ORawTrade
  | .dataRows r => r
  | .dataList r => r
  | .rows r => r
  | .other => []

/-- Pagination loop of `OrderlyFetcher.fetch_trades`
(src/fetchers/orderly.py lines 111-179).  `getPage p` is the
`client.get_trades(..., page=p, size=PAGE_SIZE)` call for the fetch's time
range, with `Except.error` modelling a raised exception, which the loop
catches: it logs and stops, returning what was accumulated.  An empty page
stops; a short page (fewer than `PAGE_SIZE` rows) stops after appending its
normalized rows; otherwise the page number is incremented.  Returns the
accumulated normalized trades and the last page number queried.  `fuel`
bounds the iterations of the model; every property below supplies enough
fuel (the Python loop itself is unbounded and would not terminate on a
source returning full pages forever). -/
def orderly_fetch_go (env : PyEnv) (wallet account_id : String)
    (getPage : Nat → Except String OResponse) :
    Nat → Nat → List OrderlyTrade → List OrderlyTrade × Nat
  | 0, page, acc => (acc, page - 1)
  | fuel + 1, page, acc =>
    match getPage page with
    | .error _ => (acc, page)
    | .ok response =>
      if (trades_data response).isEmpty then (acc, page)
      else
        if (trades_data response).length < PAGE_SIZE then
          (acc ++ (trades_data response).map
            (fun d => OrderlyTrade.from_api_response env wallet account_id d), page)
        else
          orderly_fetch_go env wallet account_id getPage fuel (page + 1)
            (acc ++ (trades_data response).map
              (fun d => OrderlyTrade.from_api_response env wallet account_id d))

/-- Venue-B credentials: `orderly_key`, `orderly_secret`, `account_id`
(src/fetchers/orderly.py lines 83-85). -/
structure OrderlyCreds where
  orderly_key : String
  orderly_secret : String
  account_id : String
deriving DecidableEq

/-- Translation of `OrderlyFetcher.fetch_trades` (src/fetchers/orderly.py
lines 59-187): with any credential absent or empty (Python truthiness of
`if not all([orderly_key, orderly_secret, account_id])`) the fetch returns
an empty list without querying; otherwise the pagination loop runs from page
1.  The time-range arguments are absorbed into `getPage`.  The second
component is the last page number queried (0 when no query was made). -/
def orderly_fetch_trades (env : PyEnv) (wallet : String)
    (creds : Option OrderlyCreds) (getPage : Nat → Except String OResponse)
    (fuel : Nat) : List OrderlyTrade × Nat :=
  match creds with
  | none => ([], 0)
  | some c =>
    if c.orderly_key = "" ∨ c.orderly_secret = "" ∨ c.account_id = "" then ([], 0)
    else orderly_fetch_go env wallet c.account_id getPage fuel 1 []

/-- Loop invariant of the pagination loop: starting at `page` against a
source whose pages `page, …, page+k-1` are full and whose page `page+k` is
short, the loop returns the accumulator followed by the normalized rows of
pages `page, …, page+k` and stops with `page+k` as the last page queried. -/
theorem orderly_fetch_go_spec (env : PyEnv) (w a : String)
    (getPage : Nat → Except String OResponse) (pages : Nat → OResponse)
    (hok : ∀ i, getPage i = Except.ok (pages i)) :
    ∀ (k page : Nat) (acc : List OrderlyTrade) (fuel : Nat), k < fuel →
      (∀ i, i < k → (trades_data (pages (page + i))).length = PAGE_SIZE) →
      (trades_data (pages (page + k))).length < PAGE_SIZE →
      orderly_fetch_go env w a getPage fuel page acc =
        (acc ++ ((List.range' page (k + 1)).map
            (fun i => (trades_data (pages i)).map
              (fun d => OrderlyTrade.from_api_response env w a d))).flatten,
          page + k) := by
  intro k
  induction k with
  | zero =>
    intro page acc fuel hfuel hfull hshort
    cases fuel with
    | zero => omega
    | succ f =>
      rw [orderly_fetch_go, hok page]
      simp only [Nat.add_zero] at hshort
      by_cases hemp : (trades_data (pages page)).isEmpty = true
      · have h0 : trades_data (pages page) = [] := List.isEmpty_iff.mp hemp
        simp [hemp, h0]
      · simp [hemp, hshort]
  | succ k ih =>
    intro page acc fuel hfuel hfull hshort
    cases fuel with
    | zero => omega
    | succ f =>
      have hfirst : (trades_data (pages page)).length = PAGE_SIZE := by
        have h := hfull 0 (Nat.succ_pos k)
        simpa using h
      have hemp : ¬ (trades_data (pages page)).isEmpty = true := by
        intro hh
        rw [List.isEmpty_iff] at hh
        rw [hh] at hfirst
        simp [PAGE_SIZE] at hfirst
      have hnl : ¬ (trades_data (pages page)).length < PAGE_SIZE := by omega
      rw [orderly_fetch_go, hok page]
      simp only [hemp, hnl, if_false, ite_false, Bool.false_eq_true]
      have hrec := ih (page + 1)
        (acc ++ (trades_data (pages page)).map
          (fun d => OrderlyTrade.from_api_response env w a d)) f (by omega)
        (fun i hi => by
          have h := hfull (i + 1) (by omega)
          simpa [show page + (i + 1) = page + 1 + i from by omega] using h)
        (by simpa [show page + (k + 1) = page + 1 + k from by omega] using hshort)
      rw [hrec]
      refine Prod.ext ?_ ?_
      · dsimp only
        conv_rhs => rw [List.range'_succ]
        simp [List.append_assoc]
      · dsimp only
        omega

/-- C7: Pagination termination and completeness: against a venue-B source
that answers every request (no errors), returns exactly `PAGE_SIZE` records
for pages 1..k and fewer than `PAGE_SIZE` for page k+1, the fetch returns
exactly the concatenation of the normalized records of pages 1 through k+1
and stops querying at page k+1; an empty page likewise stops the loop at
that page with nothing appended. -/
theorem orderly_pagination (env : PyEnv) (w : String) (c : OrderlyCreds)
    (hc : ¬(c.orderly_key = "" ∨ c.orderly_secret = "" ∨ c.account_id = ""))
    (getPage : Nat → Except String OResponse) (pages : Nat → OResponse)
    (hok : ∀ i, getPage i = Except.ok (pages i)) (k fuel : Nat)
    (hfuel : k < fuel)
    (hfull : ∀ i, 1 ≤ i → i ≤ k → (trades_data (pages i)).length = PAGE_SIZE)
    (hshort : (trades_data (pages (k + 1))).length < PAGE_SIZE) :
    orderly_fetch_trades env w (some c) getPage fuel =
      (((List.range' 1 (k + 1)).map
          (fun i => (trades_data (pages i)).map
            (fun d => OrderlyTrade.from_api_response env w c.account_id d))).flatten,
        k + 1) ∧
    (∀ (page : Nat) (acc : List OrderlyTrade) (f : Nat) (r : OResponse),
      getPage page = Except.ok r → trades_data r = [] →
      orderly_fetch_go env w c.account_id getPage (f + 1) page acc = (acc, page)) := by
  constructor
  · unfold orderly_fetch_trades
    dsimp only
    rw [if_neg hc]
    have hinv := orderly_fetch_go_spec env w c.account_id getPage pages hok k 1 []
      fuel hfuel
      (fun i hi => by
        have h := hfull (1 + i) (by omega) (by omega)
        simpa using h)
      (by simpa [Nat.add_comm 1 k] using hshort)
    rw [hinv]
    simp [Nat.add_comm 1 k]
  · intro page acc f r hr hempty
    rw [orderly_fetch_go, hr]
    simp [hempty]

/-- Witness credentials for the venue-B properties. -/
def creds0 : OrderlyCreds := ⟨"k", "s", "a"⟩

/-- Witness venue-B source: every page is the single-row short page
`{"rows": [one raw trade]}`. -/
def pagesShort : Nat → OResponse := fun _ => OResponse.rows [{}]

/-- Witness for C7 at k = 0: page 1 is short, so the fetch returns exactly
page 1's normalized rows and stops at page 1. -/
theorem orderly_pagination_witness :
    orderly_fetch_trades env0 "w" (some creds0)
        (fun i => Except.ok (pagesShort i)) 1 =
      (((List.range' 1 1).map
          (fun i => (trades_data (pagesShort i)).map
            (fun d => OrderlyTrade.from_api_response env0 "w" creds0.account_id d))).flatten,
        1) :=
  (orderly_pagination env0 "w" creds0 (by decide)
    (fun i => Except.ok (pagesShort i)) pagesShort (fun i => rfl) 0 1
    (by decide)
    (fun i h1 h2 => absurd (Nat.le_trans h1 h2) (by decide))
    (by decide)).1

/-- Translation of `TradeFetcher.fetch_orderly_for_user`
(src/fetch_trades.py lines 199-272) acting on the stored Orderly table and
the `(wallet, orderly)` cursor row: missing wallet or credentials skip the
platform with no database access; otherwise the paginated fetch runs (venue
errors are caught inside `OrderlyFetcher.fetch_trades` and surface only as a
shorter — possibly empty — result, never as an exception); an empty trade
list returns before any database write; a nonempty list is upserted, after
which the cursor is advanced to the maximum `executed_at` over all fetched
trades, incremented by the inserted count, with the error cleared.  The
`except` branch that would call `update_fetch_error` is unreachable in this
model because the modelled fetch returns instead of raising.  Returns the
new table, the new cursor row, and the count reported to the caller. -/
def fetch_orderly_for_user (env : PyEnv) (db : List OrderlyTrade)
    (st : Option FetchStatus) (wallet : String) (creds : Option OrderlyCreds)
    (getPage : Nat → Except String OResponse) (fuel : Nat) :
    List OrderlyTrade × Option FetchStatus × Int :=
  match creds with
  | none => (db, st, 0)
  | some c =>
    match (orderly_fetch_trades env wallet (some c) getPage fuel).1 with
    | [] => (db, st, 0)
    | t :: ts =>
      ((upsert_orderly_trades db (t :: ts)).1,
        some (upsert_fetch_status st
          (some (listMax t.executed_at (ts.map (fun x => x.executed_at))))
          ((upsert_orderly_trades db (t :: ts)).2 : Int) none),
        ((upsert_orderly_trades db (t :: ts)).2 : Int))

/-- Cursor row prior to a failing venue-B run: watermark 100, 7 trades ever
inserted, no recorded error. -/
def stPrior : FetchStatus := ⟨some 100, 7, none⟩

/-- Venue-B source that raises on every page request. -/
def pagesFail : Nat → Except String OResponse := fun _ => Except.error "boom"

/-- Counterexample to C4 as stated: with credentials present and the venue-B
call raising on every attempt for page 1, the fetch does return the empty
list, but the orchestrator then returns without touching the cursor row at
all: the row keeps `last_error = none` instead of being set to the error
text "boom" as the claim asserts (the exception is swallowed inside
`OrderlyFetcher.fetch_trades`, so `update_fetch_error` is never reached). -/
theorem orderly_failed_fetch_counterexample :
    fetch_orderly_for_user env0 [] (some stPrior) "w" (some creds0) pagesFail 5
      = ([], some stPrior, 0) ∧
    stPrior.last_error = none ∧
    (fetch_orderly_for_user env0 [] (some stPrior) "w" (some creds0)
        pagesFail 5).2.1 ≠ some ⟨some 100, 7, some "boom"⟩ := by
  refine ⟨by decide, rfl, by decide⟩

/-- C4 (amended): for a wallet with venue-B credentials present whose
venue-B call raises on every attempt for page 1, the fetch returns an empty
list and the orchestrator returns before any cursor write: the stored table
and the cursor row — watermark, total_inserted and last_error alike — are
exactly unchanged; in particular the error text is not recorded. -/
theorem orderly_failed_fetch_keeps_cursor (env : PyEnv)
    (db : List OrderlyTrade) (st : Option FetchStatus) (w : String)
    (c : OrderlyCreds) (getPage : Nat → Except String OResponse)
    (hfail : ∀ page, ∃ err, getPage page = Except.error err) (fuel : Nat) :
    fetch_orderly_for_user env db st w (some c) getPage fuel = (db, st, 0) := by
  have hempty : (orderly_fetch_trades env w (some c) getPage fuel).1 = [] := by
    unfold orderly_fetch_trades
    dsimp only
    by_cases hcreds : c.orderly_key = "" ∨ c.orderly_secret = "" ∨ c.account_id = ""
    · rw [if_pos hcreds]
    · rw [if_neg hcreds]
      cases fuel with
      | zero => rfl
      | succ f =>
        obtain ⟨err, herr⟩ := hfail 1
        rw [orderly_fetch_go, herr]
  unfold fetch_orderly_for_user
  dsimp only
  rw [hempty]

/-- Witness for the amended C4 at a concrete always-raising venue-B
source. -/
theorem orderly_failed_fetch_keeps_cursor_witness :
    fetch_orderly_for_user env0 [] (some stPrior) "w" (some creds0) pagesFail 3
      = ([], some stPrior, 0) :=
  orderly_failed_fetch_keeps_cursor env0 [] (some stPrior) "w" creds0 pagesFail
    (fun _ => ⟨"boom", rfl⟩) 3
